import Mathlib

/-!
Verification of the streaming audio gatekeeping pipeline in
`src/docker/speech/wake_word_detector.py`.

The Python module is shallowly embedded here: audio samples (numpy float
arrays) become `List ℝ`, timestamps become `ℚ`, strings become `List Char`,
fallible collaborators become `Except`/`Option` values, and module-level
constants become Lean definitions of the same name.  Each definition mirrors
the corresponding lines of the source file; theorems at the end of the file
settle the specification claims.
-/

open Classical

/-! ## Module-level configuration constants (source lines 22-52) -/

def SAMPLE_RATE : ℕ := 16000

def CHUNK_SIZE : ℕ := 1024

def BUFFER_DURATION : ℕ := 10

def CONTINUOUS_TRANSCRIPTION_INTERVAL : ℚ := 3

def NOISE_THRESHOLD : ℝ := 0.08

def MIN_SPEECH_DURATION : ℚ := 2

def SILENCE_DURATION : ℚ := 1

def MAX_REPETITIONS : ℕ := 1

def ECHO_THRESHOLD : ℝ := 0.75

/-! ## Text processing: `process_command` (source lines 155-228)

Python strings are embedded as `List Char`.  `str.lower` in CPython lowers
ASCII letters (the table keys are ASCII or already lowercase), `str.strip`
removes surrounding whitespace, `str.count` counts non-overlapping
occurrences, `str.split()` splits on whitespace runs dropping empty tokens,
and `in` is substring containment. -/

def pyLower (s : List Char) : List Char := s.map Char.toLower

def pyStrip (s : List Char) : List Char :=
  ((s.dropWhile Char.isWhitespace).reverse.dropWhile Char.isWhitespace).reverse

/-- Auxiliary scanner for `countOccs`: `skip` counts positions still covered
by the most recently matched occurrence, so matches never overlap. -/
def countOccsAux (pat : List Char) : ℕ → List Char → ℕ
  | _, [] => 0
  | 0, c :: rest =>
      if pat.isPrefixOf (c :: rest) then 1 + countOccsAux pat (pat.length - 1) rest
      else countOccsAux pat 0 rest
  | k + 1, _ :: rest => countOccsAux pat k rest

/-- Number of non-overlapping occurrences of `pat`, scanning left to right:
Python's `str.count` for a non-empty pattern. -/
def countOccs (pat s : List Char) : ℕ := countOccsAux pat 0 s

/-- Python `str.split()`: split on whitespace runs, dropping empty tokens. -/
def pySplit (s : List Char) : List (List Char) :=
  (s.splitOnP Char.isWhitespace).filter (fun w => !w.isEmpty)

/-- The fixed noise-pattern table (source line 165). -/
def noise_patterns : List (List Char) :=
  [("lei").data, ("los").data, ("und").data, ("aber").data,
   ("nicht mehr").data, ("das das").data, ("und und").data]

/-- Immediate word repetition: some two adjacent tokens equal
(source lines 175-178). -/
def hasAdjacentDup (ws : List (List Char)) : Bool :=
  (List.zip ws ws.tail).any (fun p => p.1 == p.2)

/-- All overlapping 2-token phrases, joined with a space
(source line 181). -/
def bigrams (ws : List (List Char)) : List (List Char) :=
  List.zipWith (fun a b => a ++ ' ' :: b) ws ws.tail

/-- Some bigram occurs more than `MAX_REPETITIONS` times in the phrase list
(source lines 182-187). -/
def hasRepeatedBigram (ws : List (List Char)) : Bool :=
  (bigrams ws).any (fun p => decide (MAX_REPETITIONS < (bigrams ws).count p))

/-- The filtering prefix of `process_command` (source lines 155-187): returns
the lower-cased, stripped text when every noise filter passes, `none` when
the transcription is rejected. -/
def gate (raw : List Char) : Option (List Char) :=
  let text := pyStrip (pyLower raw)
  if decide (text.length < 5) || text.any Char.isDigit then none
  else if noise_patterns.any (fun p => decide (1 < countOccs p text)) then none
  else
    let ws := pySplit text
    if decide (2 ≤ ws.length) && (hasAdjacentDup ws || hasRepeatedBigram ws) then none
    else some text

/-- German room table, in declared order (source lines 197-202).  The second
key reproduces the source file's bytes verbatim (a mojibake spelling). -/
def rooms : List (List Char × List Char) :=
  [(("wohnzimmer").data, ("living_room").data),
   (("kÃ¼che").data, ("kitchen").data),
   (("schlafzimmer").data, ("bedroom").data),
   (("bad").data, ("bathroom").data)]

/-- German command table, in declared order (source lines 190-195). -/
def commands : List (List Char × List Char) :=
  [(("ausschalten").data, ("turn_off").data),
   (("einschalten").data, ("turn_on").data),
   (("an").data, ("turn_on").data),
   (("aus").data, ("turn_off").data)]

/-- Python's substring test `pat in s`. -/
def substr (pat s : List Char) : Bool :=
  (List.range (s.length + 1)).any (fun i => pat.isPrefixOf (s.drop i))

/-- First room whose German name occurs in the text (source lines 204-209). -/
def detectRoom (text : List Char) : Option (List Char) :=
  (rooms.find? (fun p => substr p.1 text)).map (fun p => p.2)

/-- First command whose German name occurs in the text
(source lines 211-216). -/
def detectCmd (text : List Char) : Option (List Char) :=
  (commands.find? (fun p => substr p.1 text)).map (fun p => p.2)

/-- The dispatch decision of `process_command` (source lines 218-228): a
`(domain, service, entity_id)` triple when both a room and a command were
detected, `none` otherwise. -/
def commandIntent (text : List Char) : Option (List Char × List Char × List Char) :=
  match detectRoom text, detectCmd text with
  | some room, some cmd => some (("light").data, cmd, ("light.").data ++ room)
  | _, _ => none

/-- `process_command` end to end: gate, then map to a dispatch. -/
def process_command (raw : List Char) : Option (List Char × List Char × List Char) :=
  (gate raw).bind commandIntent

/-! ## `send_command_to_hass` (source lines 92-113) and error containment

The network collaborator is modelled by an `Except` value describing the
outcome `requests.post` would produce.  The second component of the result
records whether a network request was attempted at all. -/

def send_command_to_hass (token : Option (List Char))
    (net : Except (List Char) Unit) : Bool × Bool :=
  match token with
  | none => (false, false)
  | some _ =>
    match net with
    | Except.ok _ => (true, true)
    | Except.error _ => (false, true)

/-- The transcription stage of `process_audio` (source lines 338-355): a
failing ASR call is caught by the `except` block, so the trigger cycle
completes normally with no dispatch; a successful call feeds the text to
`process_command`. -/
def processTrigger (asrResult : Except (List Char) (List Char)) :
    Option (List Char × List Char × List Char) :=
  match asrResult with
  | Except.error _ => none
  | Except.ok text => process_command text

/-! ## Lock usage trace (source lines 275-334)

The order of operations of one continuous-mode `audio_callback` invocation,
as written in the source: the counter update, then the `buffer_lock`-guarded
roll-and-write, then (when the trigger fires) `process_audio`, which reads
`self.buffer` for the WAV snapshot and calls the transcriber.  No lock is
taken inside `process_audio`. -/

inductive Ev where
  | counterUpdate
  | acquire
  | bufferWrite
  | release
  | bufferRead
  | saveWav
  | transcribe
deriving DecidableEq

def callbackTrace (fired : Bool) : List Ev :=
  [Ev.counterUpdate, Ev.acquire, Ev.bufferWrite, Ev.release] ++
    (if fired then [Ev.bufferRead, Ev.saveWav, Ev.transcribe] else [])

/-- The `buffer_lock` is held while executing the event at index `i`. -/
def lockHeld (tr : List Ev) (i : ℕ) : Prop :=
  (tr.take i).count Ev.release < (tr.take i).count Ev.acquire

instance (tr : List Ev) (i : ℕ) : Decidable (lockHeld tr i) :=
  inferInstanceAs (Decidable (_ < _))

/-! ## Trigger policy: `should_transcribe` (source lines 258-273) -/

/-- `int(MIN_SPEECH_DURATION * SAMPLE_RATE / frames_per_chunk)`
(source line 267); Python `int` truncates the positive quotient. -/
def min_speech_frames : ℕ :=
  (⌊MIN_SPEECH_DURATION * (SAMPLE_RATE : ℚ) / (CHUNK_SIZE : ℚ)⌋).toNat

/-- `int(SILENCE_DURATION * SAMPLE_RATE / frames_per_chunk)`
(source line 293). -/
def silence_frames_threshold : ℕ :=
  (⌊SILENCE_DURATION * (SAMPLE_RATE : ℚ) / (CHUNK_SIZE : ℚ)⌋).toNat

structure TrigState where
  speech_frames : ℕ
  silence_frames : ℕ
  last_transcription_time : ℚ
deriving DecidableEq

/-- Continuous-mode `should_transcribe`, with `datetime.now().timestamp()`
passed in as `now`: returns the decision and the updated object state. -/
def shouldTranscribe (s : TrigState) (now : ℚ) : Bool × TrigState :=
  if CONTINUOUS_TRANSCRIPTION_INTERVAL ≤ now - s.last_transcription_time then
    if min_speech_frames ≤ s.speech_frames then
      (true, TrigState.mk 0 s.silence_frames now)
    else (false, s)
  else (false, s)

/-! ## Rolling buffer (source lines 235 and 298-301) -/

/-- `np.roll(buffer, -k)`: rotate left by `k`. -/
def np_roll (xs : List ℝ) (k : ℕ) : List ℝ :=
  xs.drop (k % xs.length) ++ xs.take (k % xs.length)

/-- `buffer[-len(ys):] = ys`: overwrite the tail. -/
def writeTail (xs ys : List ℝ) : List ℝ :=
  xs.take (xs.length - ys.length) ++ ys

/-- The buffer update of `audio_callback` (source lines 300-301). -/
def bufferAppend (buf frame : List ℝ) : List ℝ :=
  writeTail (np_roll buf frame.length) frame

/-- `np.zeros(SAMPLE_RATE * BUFFER_DURATION)` (source line 235). -/
def initBuffer : List ℝ := List.replicate (SAMPLE_RATE * BUFFER_DURATION) 0

/-! ## Speech activity detector: `is_speech` (source lines 115-153)

Frames are lists of real samples.  numpy float arithmetic is embedded as
exact real arithmetic. -/

/-- `np.sqrt(np.mean(np.square(audio_data)))` (source line 118). -/
noncomputable def rms (x : List ℝ) : ℝ :=
  Real.sqrt (((x.map (fun v => v ^ 2)).sum) / x.length)

/-- `np.fft.fft(audio_data)` at bin `k` (source line 121):
`X_k = sum_n x_n * exp(-2*pi*i*k*n/N)`. -/
noncomputable def fftc (x : List ℝ) (k : ℕ) : ℂ :=
  ∑ n ∈ Finset.range x.length,
    ((x.getD n 0 : ℝ) : ℂ) *
      Complex.exp (-(2 * Real.pi * Complex.I) * k * n / x.length)

/-- `np.fft.fftfreq(N, 1/SAMPLE_RATE)` at index `k` (source line 122):
nonnegative frequencies for `k < (N+1)/2`, negative beyond. -/
noncomputable def fftfreq (N k : ℕ) : ℝ :=
  ((if k < (N + 1) / 2 then (k : ℤ) else (k : ℤ) - (N : ℤ)) : ℝ) *
    (SAMPLE_RATE : ℝ) / N

/-- `speech_mask = (np.abs(freqs) >= 100) & (np.abs(freqs) <= 4000)`
(source line 123). -/
def speechMask (N k : ℕ) : Prop :=
  100 ≤ |fftfreq N k| ∧ |fftfreq N k| ≤ 4000

/-- `np.sum(np.abs(fft[speech_mask])) / len(audio_data)` (source line 124). -/
noncomputable def speech_energy (x : List ℝ) : ℝ :=
  (∑ k ∈ (Finset.range x.length).filter (fun k => speechMask x.length k),
    Complex.abs (fftc x k)) / x.length

/-- `np.correlate(audio_data, audio_data, mode='full')` restricted to
non-negative lags (source lines 128-129): the value at lag `k`. -/
noncomputable def autocorr (x : List ℝ) (k : ℕ) : ℝ :=
  ∑ n ∈ Finset.range (x.length - k), x.getD n 0 * x.getD (n + k) 0

/-- `np.max(autocorr)` over the non-negative lags.  The fold starts from `0`,
which never changes the value on a nonempty frame because the lag-0
autocorrelation (a sum of squares) is already nonnegative. -/
noncomputable def acMax (x : List ℝ) : ℝ :=
  ((List.range x.length).map (autocorr x)).foldr max 0

/-- `np.where(autocorr > ECHO_THRESHOLD * np.max(autocorr))[0]`
(source line 130): the lags whose autocorrelation exceeds the threshold,
in increasing order. -/
noncomputable def peaks (x : List ℝ) : List ℕ :=
  (List.range x.length).filter
    (fun k => decide (ECHO_THRESHOLD * acMax x < autocorr x k))

/-- `np.diff` on a list of indices (source line 131). -/
def listDiff (l : List ℕ) : List ℤ :=
  List.zipWith (fun (a b : ℕ) => (b : ℤ) - (a : ℤ)) l l.tail

/-- `np.mean` of integer spacings. -/
noncomputable def lmean (l : List ℤ) : ℝ :=
  ((l.map (fun v => (v : ℝ))).sum) / l.length

/-- `np.std` (population standard deviation) of integer spacings. -/
noncomputable def lstd (l : List ℤ) : ℝ :=
  Real.sqrt (((l.map (fun v => ((v : ℝ) - lmean l) ^ 2)).sum) / l.length)

/-- `len(peak_spacing) > 2 and np.std(peak_spacing) < 0.1 * np.mean(...)`
(source line 132). -/
noncomputable def has_periodic_echo (x : List ℝ) : Prop :=
  2 < (listDiff (peaks x)).length ∧
    lstd (listDiff (peaks x)) < 0.1 * lmean (listDiff (peaks x))

/-- `np.diff(np.abs(audio_data))` (source lines 135-136). -/
noncomputable def ampDiffs (x : List ℝ) : List ℝ :=
  List.zipWith (fun a b => |b| - |a|) x x.tail

/-- `np.any(np.abs(amplitude_changes) > threshold * 2)` (source line 137). -/
noncomputable def has_feedback_spikes (x : List ℝ) (threshold : ℝ) : Prop :=
  ∃ d ∈ ampDiffs x, threshold * 2 < |d|

/-- Insert an index into a list of indices sorted by `key` (ascending),
placing it after all entries with a key not exceeding its own. -/
noncomputable def insertSortedIdx (key : ℕ → ℝ) (a : ℕ) : List ℕ → List ℕ
  | [] => [a]
  | b :: l => if key b ≤ key a then b :: insertSortedIdx key a l else a :: b :: l

/-- `np.argsort` over the given index list: indices ordered by ascending key,
ties resolved deterministically in favour of the earlier index. -/
noncomputable def argsort (key : ℕ → ℝ) (l : List ℕ) : List ℕ :=
  l.foldl (fun acc i => insertSortedIdx key i acc) []

/-- `np.argsort(freq_magnitudes)[-3:]` over the positive-frequency half of
the spectrum (source lines 140-141): the indices of the three largest
magnitudes. -/
noncomputable def topPeakIdx (x : List ℝ) : List ℕ :=
  let idx := argsort (fun k => Complex.abs (fftc x k)) (List.range (x.length / 2))
  idx.drop (idx.length - 3)

/-- `np.any((peak_freqs > 2000) & (peak_freqs < 4000))` (source line 142). -/
noncomputable def has_feedback_freqs (x : List ℝ) : Prop :=
  ∃ k ∈ topPeakIdx x, 2000 < fftfreq x.length k ∧ fftfreq x.length k < 4000

/-- `is_speech(audio_data, threshold)` (source lines 115-153): the
conjunction of the two positive evidence signals and the three vetoes
(source lines 145-151). -/
noncomputable def is_speech (x : List ℝ) (threshold : ℝ) : Prop :=
  threshold < rms x ∧ threshold < speech_energy x ∧
    ¬has_periodic_echo x ∧ ¬has_feedback_spikes x threshold ∧
    ¬has_feedback_freqs x

/-! ## Per-frame counter update and the full continuous-mode callback
(source lines 275-319) -/

/-- The speech/silence counter update of `audio_callback`
(source lines 286-296), acting on a `(speech_frames, silence_frames)`
pair. -/
noncomputable def counterStep (c : ℕ × ℕ) (frame : List ℝ) : ℕ × ℕ :=
  if is_speech frame NOISE_THRESHOLD then (c.1 + 1, 0)
  else
    let sil := c.2 + 1
    if silence_frames_threshold ≤ sil then (0, sil) else (c.1, sil)

structure ProcState where
  trig : TrigState
  buffer : List ℝ

/-- One continuous-mode `audio_callback` invocation at wall-clock time
`now`: counter update, buffer append, then the `should_transcribe` check.
Returns the new state and whether a transcription cycle was triggered. -/
noncomputable def audio_callback (s : ProcState) (frame : List ℝ) (now : ℚ) :
    ProcState × Bool :=
  let c := counterStep (s.trig.speech_frames, s.trig.silence_frames) frame
  let buf := bufferAppend s.buffer frame
  let r := shouldTranscribe (TrigState.mk c.1 c.2 s.trig.last_transcription_time) now
  (ProcState.mk r.2 buf, r.1)

/-- The wall-clock times at which a run of callback invocations (each a
frame together with its `datetime.now()` timestamp) triggers
transcription. -/
noncomputable def firedTimes (s : ProcState) : List (List ℝ × ℚ) → List ℚ
  | [] => []
  | ev :: evs =>
    let r := audio_callback s ev.1 ev.2
    if r.2 then ev.2 :: firedTimes r.1 evs else firedTimes r.1 evs

/-! ## Concrete frames used as witnesses

`x4` is one period-4 cycle of a 4000 Hz cosine tone of amplitude 0.15 at
the 16 kHz sample rate: loud enough and inside the speech band, smooth
enough to avoid the spike veto, and with a single autocorrelation peak.
`z4` is a silent frame. -/

noncomputable def x4 : List ℝ := [0.15, 0, -0.15, 0]

noncomputable def z4 : List ℝ := [0, 0, 0, 0]

/-! ## Helper lemmas -/

theorem bufferAppend_eq (buf frame : List ℝ) (h : frame.length ≤ buf.length) :
    bufferAppend buf frame = buf.drop frame.length ++ frame := by
  unfold bufferAppend np_roll writeTail
  rcases Nat.lt_or_ge frame.length buf.length with hlt | hge
  · rw [Nat.mod_eq_of_lt hlt]
    have hlen : (buf.drop frame.length).length = buf.length - frame.length := by
      simp
    rw [List.length_append, List.length_drop, List.length_take]
    have : buf.length - frame.length + min frame.length buf.length -
        frame.length = buf.length - frame.length := by omega
    rw [this, List.take_left' hlen]
  · have heq : frame.length = buf.length := le_antisymm h hge
    rw [heq, Nat.mod_self]
    simp

theorem bufferAppend_length (buf frame : List ℝ) (h : frame.length ≤ buf.length) :
    (bufferAppend buf frame).length = buf.length := by
  rw [bufferAppend_eq buf frame h]
  simp
  omega


theorem foldl_bufferAppend (fs : List (List ℝ)) (buf : List ℝ)
    (h : ∀ f ∈ fs, f.length ≤ buf.length) :
    List.foldl bufferAppend buf fs = (buf ++ fs.flatten).drop fs.flatten.length := by
  induction fs generalizing buf with
  | nil => simp
  | cons f fs ih =>
    have hf : f.length ≤ buf.length := h f (List.mem_cons_self f fs)
    have hrest : ∀ g ∈ fs, g.length ≤ (bufferAppend buf f).length := by
      intro g hg
      rw [bufferAppend_length buf f hf]
      exact h g (List.mem_cons_of_mem f hg)
    rw [List.foldl_cons, ih (bufferAppend buf f) hrest, bufferAppend_eq buf f hf]
    rw [List.flatten_cons, List.length_append]
    rw [← List.drop_drop fs.flatten.length f.length,
      List.drop_append_of_le_length hf, List.append_assoc]

/-- C3: across any sequence of appends the rolling buffer keeps its length,
and once the appended frames hold at least `capacity` samples the buffer is
exactly the most recent `capacity` samples of the appended stream, in
temporal order. -/
theorem c3_rolling_buffer (buf : List ℝ) (fs : List (List ℝ))
    (h : ∀ f ∈ fs, f.length ≤ buf.length) :
    (List.foldl bufferAppend buf fs).length = buf.length ∧
      (buf.length ≤ fs.flatten.length →
        List.foldl bufferAppend buf fs =
          fs.flatten.drop (fs.flatten.length - buf.length)) := by
  constructor
  · rw [foldl_bufferAppend fs buf h]
    simp
  · intro hcap
    rw [foldl_bufferAppend fs buf h]
    have hsplit : fs.flatten.length = buf.length + (fs.flatten.length - buf.length) := by
      omega
    conv_lhs => rw [hsplit]
    exact List.drop_append (fs.flatten.length - buf.length)

/-- Witness for C3 at a concrete buffer and frame sequence. -/
theorem c3_witness :
    (∀ f ∈ [[(1:ℝ),2],[3,4],[5,6]], f.length ≤ ([0,0,0,0] : List ℝ).length) ∧
      (List.foldl bufferAppend ([0,0,0,0] : List ℝ) [[1,2],[3,4],[5,6]]).length = 4 ∧
      List.foldl bufferAppend ([0,0,0,0] : List ℝ) [[1,2],[3,4],[5,6]] =
        [3,4,5,6] := by
  have h : ∀ f ∈ [[(1:ℝ),2],[3,4],[5,6]], f.length ≤ ([0,0,0,0] : List ℝ).length := by
    simp
  have hc := c3_rolling_buffer ([0,0,0,0] : List ℝ) [[1,2],[3,4],[5,6]] h
  refine ⟨h, hc.1, ?_⟩
  rw [hc.2 (by simp)]
  simp

theorem min_speech_frames_eq : min_speech_frames = 31 := by
  norm_num [min_speech_frames, MIN_SPEECH_DURATION, SAMPLE_RATE, CHUNK_SIZE]
  rfl

theorem silence_frames_threshold_eq : silence_frames_threshold = 15 := by
  norm_num [silence_frames_threshold, SILENCE_DURATION, SAMPLE_RATE, CHUNK_SIZE]
  rfl

/-- C10: a call of `should_transcribe` that returns false leaves the whole
trigger state (speech counter, silence counter and last-transcription
timestamp) untouched. -/
theorem c10_no_fire_no_mutation (s : TrigState) (now : ℚ)
    (h : (shouldTranscribe s now).1 = false) :
    (shouldTranscribe s now).2 = s := by
  unfold shouldTranscribe at h ⊢
  split_ifs at h ⊢ <;> simp_all

/-- Witness for C10: the interval has elapsed but the speech counter is
below the minimum, so nothing fires and nothing changes. -/
theorem c10_witness :
    (shouldTranscribe (TrigState.mk 7 2 0) 100).1 = false ∧
      (shouldTranscribe (TrigState.mk 7 2 0) 100).2 = TrigState.mk 7 2 0 := by
  have h : (shouldTranscribe (TrigState.mk 7 2 0) 100).1 = false := by
    unfold shouldTranscribe
    rw [if_pos (by norm_num [CONTINUOUS_TRANSCRIPTION_INTERVAL]),
      if_neg (by rw [min_speech_frames_eq]; norm_num)]
  exact ⟨h, c10_no_fire_no_mutation _ _ h⟩

theorem shouldTranscribe_fst (s : TrigState) (now : ℚ) :
    (shouldTranscribe s now).1 = true ↔
      (CONTINUOUS_TRANSCRIPTION_INTERVAL ≤ now - s.last_transcription_time ∧
        min_speech_frames ≤ s.speech_frames) := by
  unfold shouldTranscribe
  split_ifs <;> simp_all

theorem shouldTranscribe_fire (s : TrigState) (now : ℚ)
    (h : (shouldTranscribe s now).1 = true) :
    (shouldTranscribe s now).2 = TrigState.mk 0 s.silence_frames now := by
  unfold shouldTranscribe at h ⊢
  split_ifs at h ⊢ <;> simp_all

theorem firedTimes_cons (s : ProcState) (ev : List ℝ × ℚ) (evs : List (List ℝ × ℚ)) :
    firedTimes s (ev :: evs) =
      if (audio_callback s ev.1 ev.2).2 then
        ev.2 :: firedTimes (audio_callback s ev.1 ev.2).1 evs
      else firedTimes (audio_callback s ev.1 ev.2).1 evs := rfl

theorem audio_callback_fire_last (s : ProcState) (frame : List ℝ) (now : ℚ)
    (h : (audio_callback s frame now).2 = true) :
    (audio_callback s frame now).1.trig.last_transcription_time = now ∧
      CONTINUOUS_TRANSCRIPTION_INTERVAL ≤ now - s.trig.last_transcription_time := by
  unfold audio_callback shouldTranscribe at h ⊢
  dsimp only at h ⊢
  split_ifs at h ⊢ <;> simp_all

theorem audio_callback_no_fire_last (s : ProcState) (frame : List ℝ) (now : ℚ)
    (h : (audio_callback s frame now).2 = false) :
    (audio_callback s frame now).1.trig.last_transcription_time =
      s.trig.last_transcription_time := by
  unfold audio_callback shouldTranscribe at h ⊢
  dsimp only at h ⊢
  split_ifs at h ⊢ <;> simp_all

theorem firedTimes_spec (evs : List (List ℝ × ℚ)) (s : ProcState) :
    (∀ t ∈ firedTimes s evs,
      s.trig.last_transcription_time + CONTINUOUS_TRANSCRIPTION_INTERVAL ≤ t) ∧
      (firedTimes s evs).Chain'
        (fun a b => a + CONTINUOUS_TRANSCRIPTION_INTERVAL ≤ b) := by
  have hI : (0:ℚ) ≤ CONTINUOUS_TRANSCRIPTION_INTERVAL := by
    norm_num [CONTINUOUS_TRANSCRIPTION_INTERVAL]
  induction evs generalizing s with
  | nil => simp [firedTimes]
  | cons ev evs ih =>
    rcases Bool.eq_false_or_eq_true (audio_callback s ev.1 ev.2).2 with hf | hf
    · rw [firedTimes_cons, if_pos (by simp [hf])]
      have hlast := audio_callback_fire_last s ev.1 ev.2 hf
      have ihs := ih (audio_callback s ev.1 ev.2).1
      rw [hlast.1] at ihs
      constructor
      · intro t ht
        rcases List.mem_cons.1 ht with rfl | ht'
        · linarith [hlast.2]
        · have := ihs.1 t ht'
          linarith [hlast.2]
      · refine List.chain'_cons'.2 ⟨?_, ihs.2⟩
        intro b hb
        exact ihs.1 b (List.mem_of_mem_head? hb)
    · rw [firedTimes_cons, if_neg (by simp [hf])]
      have hlast := audio_callback_no_fire_last s ev.1 ev.2 hf
      have ihs := ih (audio_callback s ev.1 ev.2).1
      rw [hlast] at ihs
      exact ihs

/-- C4: in continuous mode, `should_transcribe` returns true exactly when
the interval since the last transcription has elapsed and the speech-frame
count has reached the minimum (`int(2.0*16000/1024) = 31` frames); firing
resets the speech counter and stamps the time; and along any run of
callback invocations, two triggers are never separated by less than
`CONTINUOUS_TRANSCRIPTION_INTERVAL` seconds, regardless of the
speech-frame counts. -/
theorem c4_should_transcribe (s : TrigState) (now : ℚ) (s₀ : ProcState)
    (evs : List (List ℝ × ℚ)) :
    ((shouldTranscribe s now).1 = true ↔
      (CONTINUOUS_TRANSCRIPTION_INTERVAL ≤ now - s.last_transcription_time ∧
        min_speech_frames ≤ s.speech_frames)) ∧
    ((shouldTranscribe s now).1 = true →
      (shouldTranscribe s now).2 = TrigState.mk 0 s.silence_frames now) ∧
    (firedTimes s₀ evs).Chain'
      (fun a b => a + CONTINUOUS_TRANSCRIPTION_INTERVAL ≤ b) :=
  ⟨shouldTranscribe_fst s now, shouldTranscribe_fire s now,
    (firedTimes_spec evs s₀).2⟩

/-- Witness for C4: with 31 accumulated speech frames and three seconds
elapsed, the trigger fires, zeroes the speech counter, keeps the silence
counter and stamps the current time. -/
theorem c4_witness :
    (shouldTranscribe (TrigState.mk 31 5 0) 3).1 = true ∧
      (shouldTranscribe (TrigState.mk 31 5 0) 3).2 = TrigState.mk 0 5 3 := by
  have h := c4_should_transcribe (TrigState.mk 31 5 0) 3
    (ProcState.mk (TrigState.mk 0 0 0) []) []
  have hfire : (shouldTranscribe (TrigState.mk 31 5 0) 3).1 = true :=
    h.1.mpr ⟨by norm_num [CONTINUOUS_TRANSCRIPTION_INTERVAL],
      by rw [min_speech_frames_eq]⟩
  exact ⟨hfire, h.2.1 hfire⟩

/-- C8: per-trigger errors are contained.  A failing ASR call is caught by
the handler in `process_audio`, so the trigger cycle completes normally (a
total function returning no dispatch), and a missing `HASS_TOKEN` makes
`send_command_to_hass` return false without attempting a network request. -/
theorem c8_error_containment :
    (∀ err, processTrigger (Except.error err) = none) ∧
      (∀ net, send_command_to_hass none net = (false, false)) :=
  ⟨fun _ => rfl, fun _ => rfl⟩

/-- Counterexample to C9 as stated: in the callback's own event order, the
snapshot read of the buffer performed by `process_audio` (index 4 of the
trace of a firing callback) is executed after `buffer_lock` has been
released, so it does not happen under the lock that guards the append. -/
theorem c9_counterexample :
    ¬ (∀ i, (callbackTrace true).get? i = some Ev.bufferRead →
        lockHeld (callbackTrace true) i) := by
  intro h
  exact absurd (h 4 (by decide)) (by decide)

/-- C9 amended: the per-frame buffer append does execute under
`buffer_lock`, and the lock is never held across the snapshot read or the
slow transcription call (both run after the lock has been released). -/
theorem c9_lock_discipline (b : Bool) (i : ℕ) :
    ((callbackTrace b).get? i = some Ev.bufferWrite →
      lockHeld (callbackTrace b) i) ∧
    ((callbackTrace b).get? i = some Ev.bufferRead →
      ¬lockHeld (callbackTrace b) i) ∧
    ((callbackTrace b).get? i = some Ev.transcribe →
      ¬lockHeld (callbackTrace b) i) := by
  have hout : ∀ j, 7 ≤ j → (callbackTrace b).get? j = none := by
    intro j hj
    apply List.get?_eq_none.2
    cases b <;> simp [callbackTrace] <;> omega
  rcases Nat.lt_or_ge i 7 with hi | hi
  · interval_cases i <;> cases b <;> refine ⟨?_, ?_, ?_⟩ <;> intro h <;>
      first
        | exact (by decide : lockHeld (callbackTrace true) 2)
        | exact (by decide : lockHeld (callbackTrace false) 2)
        | simp_all [callbackTrace, lockHeld]
        | exact absurd h (by decide)
  · have := hout i hi
    refine ⟨?_, ?_, ?_⟩ <;> intro h <;> rw [this] at h <;> exact Option.noConfusion h

/-- Witness for the amended C9: the buffer append at index 2 of the firing
trace runs with the lock held. -/
theorem c9_witness :
    (callbackTrace true).get? 2 = some Ev.bufferWrite ∧
      lockHeld (callbackTrace true) 2 :=
  ⟨by decide, (c9_lock_discipline true 2).1 (by decide)⟩

/-- C1: `is_speech` holds exactly when the RMS amplitude exceeds the noise
threshold, the normalized 100-4000 Hz magnitude-spectrum energy exceeds the
same threshold, the periodic-echo veto does not fire, no first difference
of the amplitude envelope exceeds twice the threshold (feedback-spike
veto), and no top-3 magnitude peak of the positive-frequency spectrum lies
strictly between 2000 and 4000 Hz (feedback-frequency veto).  `is_speech`
is a pure function of the frame and threshold, hence deterministic and
side-effect free. -/
theorem c1_is_speech_characterization (x : List ℝ) (t : ℝ) :
    is_speech x t ↔
      (t < rms x ∧ t < speech_energy x ∧ ¬has_periodic_echo x ∧
        (∀ d ∈ ampDiffs x, |d| ≤ t * 2) ∧
        (∀ k ∈ topPeakIdx x,
          ¬(2000 < fftfreq x.length k ∧ fftfreq x.length k < 4000))) := by
  unfold is_speech has_feedback_spikes has_feedback_freqs
  simp only [not_exists, not_lt, not_and]

theorem hasAdjacentDup_two_le (ws : List (List Char))
    (h : hasAdjacentDup ws = true) : 2 ≤ ws.length := by
  match ws with
  | [] => simp [hasAdjacentDup] at h
  | [a] => simp [hasAdjacentDup] at h
  | a :: b :: t => simp

theorem hasRepeatedBigram_two_le (ws : List (List Char))
    (h : hasRepeatedBigram ws = true) : 2 ≤ ws.length := by
  match ws with
  | [] => simp [hasRepeatedBigram, bigrams] at h
  | [a] => simp [hasRepeatedBigram, bigrams] at h
  | a :: b :: t => simp

theorem pyStrip_length_le (s : List Char) : (pyStrip s).length ≤ s.length := by
  unfold pyStrip
  calc ((s.dropWhile Char.isWhitespace).reverse.dropWhile
      Char.isWhitespace).reverse.length
      ≤ (s.dropWhile Char.isWhitespace).reverse.length := by
        rw [List.length_reverse]
        exact (List.dropWhile_suffix _).length_le
    _ ≤ s.length := by
        rw [List.length_reverse]
        exact (List.dropWhile_suffix _).length_le

/-- C6: the transcription gate rejects texts that are shorter than 5
characters or contain a digit, texts in which a fixed noise pattern occurs
more than once, texts with two identical adjacent whitespace tokens, and
texts in which an overlapping 2-token phrase occurs more than
`MAX_REPETITIONS` (= 1) times; in particular it rejects `"123 abc"`,
`"der der Haus"` and a text in which the bigram `"guten tag"` appears 3
times, while a well-formed unique sentence of adequate length passes
through to the command mapper. -/
theorem c6_transcription_gate :
    (∀ raw, (pyStrip (pyLower raw)).length < 5 → gate raw = none) ∧
    (∀ raw, raw.length < 5 → gate raw = none) ∧
    (∀ raw c, c ∈ pyStrip (pyLower raw) → c.isDigit = true → gate raw = none) ∧
    (∀ raw p, p ∈ noise_patterns → 1 < countOccs p (pyStrip (pyLower raw)) →
      gate raw = none) ∧
    (∀ raw, hasAdjacentDup (pySplit (pyStrip (pyLower raw))) = true →
      gate raw = none) ∧
    (∀ raw, hasRepeatedBigram (pySplit (pyStrip (pyLower raw))) = true →
      gate raw = none) ∧
    gate (("123 abc").data) = none ∧
    gate (("der der Haus").data) = none ∧
    gate (("guten tag guten tag guten tag").data) = none ∧
    gate (("schalte das licht im wohnzimmer aus").data) =
      some (("schalte das licht im wohnzimmer aus").data) := by
  have hshort : ∀ raw, (pyStrip (pyLower raw)).length < 5 → gate raw = none := by
    intro raw h
    simp [gate, h]
  refine ⟨hshort, ?_, ?_, ?_, ?_, ?_, by decide, by decide, by decide, by decide⟩
  · intro raw h
    apply hshort
    calc (pyStrip (pyLower raw)).length ≤ (pyLower raw).length :=
          pyStrip_length_le _
      _ = raw.length := List.length_map _ _
      _ < 5 := h
  · intro raw c hc hd
    have hb : (pyStrip (pyLower raw)).any Char.isDigit = true :=
      List.any_eq_true.2 ⟨c, hc, hd⟩
    simp [gate, hb]
  · intro raw p hp hcount
    have hb : noise_patterns.any
        (fun q => decide (1 < countOccs q (pyStrip (pyLower raw)))) = true :=
      List.any_eq_true.2 ⟨p, hp, by simp [hcount]⟩
    simp [gate, hb]
  · intro raw h
    have h2 : decide (2 ≤ (pySplit (pyStrip (pyLower raw))).length) = true :=
      decide_eq_true (hasAdjacentDup_two_le _ h)
    simp [gate, h, h2]
  · intro raw h
    have h2 : decide (2 ≤ (pySplit (pyStrip (pyLower raw))).length) = true :=
      decide_eq_true (hasRepeatedBigram_two_le _ h)
    simp [gate, h, h2]

/-- Witness for C6, exercising each rejection at a concrete input: a short
text, a digit-bearing text, a doubled noise pattern, an immediate word
repetition, and a repeated bigram. -/
theorem c6_witness :
    ((pyStrip (pyLower (("kurz").data))).length < 5 ∧
      gate (("kurz").data) = none) ∧
    ((("abc").data.length < 5) ∧ gate (("abc").data) = none) ∧
    ('7' ∈ pyStrip (pyLower (("nummer 777").data)) ∧ Char.isDigit '7' = true ∧
      gate (("nummer 777").data) = none) ∧
    ((("und").data ∈ noise_patterns ∧
        1 < countOccs (("und").data) (pyStrip (pyLower (("und dann und dann").data)))) ∧
      gate (("und dann und dann").data) = none) ∧
    (hasAdjacentDup (pySplit (pyStrip (pyLower (("das das haus").data)))) = true ∧
      gate (("das das haus").data) = none) ∧
    (hasRepeatedBigram (pySplit (pyStrip (pyLower (("guten tag gut guten tag").data)))) = true ∧
      gate (("guten tag gut guten tag").data) = none) := by
  refine ⟨⟨by decide, c6_transcription_gate.1 _ (by decide)⟩,
    ⟨by decide, c6_transcription_gate.2.1 _ (by decide)⟩,
    ⟨by decide, by decide, c6_transcription_gate.2.2.1 _ '7' (by decide) (by decide)⟩,
    ⟨⟨by decide, by decide⟩,
      c6_transcription_gate.2.2.2.1 (("und dann und dann").data) (("und").data)
        (by decide) (by decide)⟩,
    ⟨by decide, c6_transcription_gate.2.2.2.2.1 _ (by decide)⟩,
    ⟨by decide, c6_transcription_gate.2.2.2.2.2.1 _ (by decide)⟩⟩

/-- C7: the command mapper works on the lower-cased (and stripped) text the
gate produced, scans the room and command tables in declared order for the
first substring match each, and dispatches only when both a room and a
command are found, templating the room into the `light.` device-class
prefix; `"schalte das licht im wohnzimmer aus"` yields `turn_off` for
`light.living_room`, and a text with a room but no recognized command
yields no dispatch. -/
theorem c7_command_mapper :
    (∀ raw text, gate raw = some text → text = pyStrip (pyLower raw)) ∧
    (∀ text, (commandIntent text).isSome ↔
      ((detectRoom text).isSome ∧ (detectCmd text).isSome)) ∧
    (∀ text room cmd, detectRoom text = some room → detectCmd text = some cmd →
      commandIntent text = some (("light").data, cmd, ("light.").data ++ room)) ∧
    (∀ text, detectCmd text = none → commandIntent text = none) ∧
    (∀ text, detectRoom text = none → commandIntent text = none) ∧
    (∀ text p, p ∈ rooms → substr p.1 text = true → (detectRoom text).isSome) ∧
    (∀ text p, p ∈ commands → substr p.1 text = true → (detectCmd text).isSome) ∧
    process_command (("schalte das licht im wohnzimmer aus").data) =
      some (("light").data, ("turn_off").data, ("light.living_room").data) ∧
    (detectRoom (("wohnzimmer heute bitte").data) = some (("living_room").data) ∧
      commandIntent (("wohnzimmer heute bitte").data) = none) := by
  refine ⟨?_, ?_, ?_, ?_, ?_, ?_, ?_, by decide, by decide, by decide⟩
  · intro raw text h
    unfold gate at h
    dsimp only at h
    split_ifs at h <;> simp_all
  · intro text
    unfold commandIntent
    rcases detectRoom text with _ | room <;> rcases detectCmd text with _ | cmd <;>
      simp
  · intro text room cmd hr hc
    unfold commandIntent
    rw [hr, hc]
  · intro text hc
    unfold commandIntent
    rw [hc]
    rcases detectRoom text with _ | room <;> simp
  · intro text hr
    unfold commandIntent
    rw [hr]
  · intro text p hp hm
    rcases hfind : List.find? (fun q => substr q.1 text) rooms with _ | q
    · rw [List.find?_eq_none] at hfind
      exact absurd hm (by simpa using hfind p hp)
    · simp [detectRoom, hfind]
  · intro text p hp hm
    rcases hfind : List.find? (fun q => substr q.1 text) commands with _ | q
    · rw [List.find?_eq_none] at hfind
      exact absurd hm (by simpa using hfind p hp)
    · simp [detectCmd, hfind]

/-- Witness for C7 at the concrete German command sentence. -/
theorem c7_witness :
    detectRoom (("schalte das licht im wohnzimmer aus").data) =
      some (("living_room").data) ∧
    detectCmd (("schalte das licht im wohnzimmer aus").data) =
      some (("turn_off").data) ∧
    commandIntent (("schalte das licht im wohnzimmer aus").data) =
      some (("light").data, ("turn_off").data,
        ("light.").data ++ ("living_room").data) :=
  ⟨by decide, by decide,
    c7_command_mapper.2.2.1 (("schalte das licht im wohnzimmer aus").data)
      (("living_room").data) (("turn_off").data) (by decide) (by decide)⟩

/-! ## Evaluation lemmas for the speech detector at concrete frames -/

theorem exp_neg_pi_mul_I : Complex.exp (-(Real.pi * Complex.I)) = -1 := by
  rw [Complex.exp_neg, Complex.exp_pi_mul_I]
  norm_num

theorem exp_neg_two_pi_mul_I : Complex.exp (-(2 * Real.pi * Complex.I)) = 1 := by
  rw [Complex.exp_neg, Complex.exp_two_pi_mul_I]
  norm_num

theorem exp_neg_three_pi_mul_I :
    Complex.exp (-(3 * (Real.pi * Complex.I))) = -1 := by
  have h : -(3 * ((Real.pi:ℂ) * Complex.I)) =
      -(Real.pi * Complex.I) + -(2 * Real.pi * Complex.I) := by ring
  rw [h, Complex.exp_add, exp_neg_pi_mul_I, exp_neg_two_pi_mul_I]
  norm_num

theorem fftc_x4_zero : fftc x4 0 = 0 := by
  rw [fftc, show x4.length = 4 from rfl]
  rw [Finset.sum_range_succ, Finset.sum_range_succ, Finset.sum_range_succ,
    Finset.sum_range_succ, Finset.sum_range_zero]
  rw [show x4.getD 0 0 = 0.15 from rfl, show x4.getD 1 0 = 0 from rfl,
    show x4.getD 2 0 = -0.15 from rfl, show x4.getD 3 0 = 0 from rfl]
  have h0 : ∀ n : ℕ,
      -(2 * (Real.pi:ℂ) * Complex.I) * ((0:ℕ):ℂ) * (n:ℂ) / ((4:ℕ):ℂ) = 0 := by
    intro n
    push_cast
    ring
  simp only [h0, Complex.exp_zero]
  push_cast
  ring

theorem fftc_x4_one : fftc x4 1 = ((0.3:ℝ):ℂ) := by
  rw [fftc, show x4.length = 4 from rfl]
  rw [Finset.sum_range_succ, Finset.sum_range_succ, Finset.sum_range_succ,
    Finset.sum_range_succ, Finset.sum_range_zero]
  rw [show x4.getD 0 0 = 0.15 from rfl, show x4.getD 1 0 = 0 from rfl,
    show x4.getD 2 0 = -0.15 from rfl, show x4.getD 3 0 = 0 from rfl]
  have h0 : -(2 * (Real.pi:ℂ) * Complex.I) * ((1:ℕ):ℂ) * ((0:ℕ):ℂ) /
      ((4:ℕ):ℂ) = 0 := by
    push_cast
    ring
  have h2 : -(2 * (Real.pi:ℂ) * Complex.I) * ((1:ℕ):ℂ) * ((2:ℕ):ℂ) /
      ((4:ℕ):ℂ) = -(Real.pi * Complex.I) := by
    push_cast
    ring
  rw [h0, h2, Complex.exp_zero, exp_neg_pi_mul_I]
  push_cast
  norm_num

theorem fftc_x4_two : fftc x4 2 = 0 := by
  rw [fftc, show x4.length = 4 from rfl]
  rw [Finset.sum_range_succ, Finset.sum_range_succ, Finset.sum_range_succ,
    Finset.sum_range_succ, Finset.sum_range_zero]
  rw [show x4.getD 0 0 = 0.15 from rfl, show x4.getD 1 0 = 0 from rfl,
    show x4.getD 2 0 = -0.15 from rfl, show x4.getD 3 0 = 0 from rfl]
  have h0 : -(2 * (Real.pi:ℂ) * Complex.I) * ((2:ℕ):ℂ) * ((0:ℕ):ℂ) /
      ((4:ℕ):ℂ) = 0 := by
    push_cast
    ring
  have h2 : -(2 * (Real.pi:ℂ) * Complex.I) * ((2:ℕ):ℂ) * ((2:ℕ):ℂ) /
      ((4:ℕ):ℂ) = -(2 * Real.pi * Complex.I) := by
    push_cast
    ring
  rw [h0, h2, Complex.exp_zero, exp_neg_two_pi_mul_I]
  push_cast
  norm_num

theorem fftc_x4_three : fftc x4 3 = ((0.3:ℝ):ℂ) := by
  rw [fftc, show x4.length = 4 from rfl]
  rw [Finset.sum_range_succ, Finset.sum_range_succ, Finset.sum_range_succ,
    Finset.sum_range_succ, Finset.sum_range_zero]
  rw [show x4.getD 0 0 = 0.15 from rfl, show x4.getD 1 0 = 0 from rfl,
    show x4.getD 2 0 = -0.15 from rfl, show x4.getD 3 0 = 0 from rfl]
  have h0 : -(2 * (Real.pi:ℂ) * Complex.I) * ((3:ℕ):ℂ) * ((0:ℕ):ℂ) /
      ((4:ℕ):ℂ) = 0 := by
    push_cast
    ring
  have h2 : -(2 * (Real.pi:ℂ) * Complex.I) * ((3:ℕ):ℂ) * ((2:ℕ):ℂ) /
      ((4:ℕ):ℂ) = -(3 * (Real.pi * Complex.I)) := by
    push_cast
    ring
  rw [h0, h2, Complex.exp_zero, exp_neg_three_pi_mul_I]
  push_cast
  norm_num

theorem fftfreq_four_zero : fftfreq 4 0 = 0 := by
  norm_num [fftfreq]

theorem fftfreq_four_one : fftfreq 4 1 = 4000 := by
  norm_num [fftfreq, SAMPLE_RATE]

theorem fftfreq_four_two : fftfreq 4 2 = -8000 := by
  norm_num [fftfreq, SAMPLE_RATE]

theorem fftfreq_four_three : fftfreq 4 3 = -4000 := by
  norm_num [fftfreq, SAMPLE_RATE]

theorem speech_energy_x4 : speech_energy x4 = 0.15 := by
  rw [speech_energy, show x4.length = 4 from rfl]
  rw [Finset.sum_filter]
  rw [Finset.sum_range_succ, Finset.sum_range_succ, Finset.sum_range_succ,
    Finset.sum_range_succ, Finset.sum_range_zero]
  rw [if_neg (by norm_num [speechMask, fftfreq_four_zero]),
    if_pos (by norm_num [speechMask, fftfreq_four_one]),
    if_neg (by norm_num [speechMask, fftfreq_four_two]),
    if_pos (by norm_num [speechMask, fftfreq_four_three])]
  rw [fftc_x4_one, fftc_x4_three, Complex.abs_ofReal]
  rw [abs_of_pos (show (0:ℝ) < 0.3 by norm_num)]
  norm_num

theorem rms_x4 : NOISE_THRESHOLD < rms x4 := by
  rw [NOISE_THRESHOLD, rms, Real.lt_sqrt (by norm_num)]
  norm_num [x4]

theorem autocorr_x4_zero : autocorr x4 0 = 0.045 := by
  rw [autocorr, show x4.length - 0 = 4 from rfl]
  rw [Finset.sum_range_succ, Finset.sum_range_succ, Finset.sum_range_succ,
    Finset.sum_range_succ, Finset.sum_range_zero]
  norm_num [show x4[0]? = some (0.15:ℝ) from rfl,
    show x4[1]? = some (0:ℝ) from rfl, show x4[2]? = some (-0.15:ℝ) from rfl,
    show x4[3]? = some (0:ℝ) from rfl]

theorem autocorr_x4_one : autocorr x4 1 = 0 := by
  rw [autocorr, show x4.length - 1 = 3 from rfl]
  rw [Finset.sum_range_succ, Finset.sum_range_succ, Finset.sum_range_succ,
    Finset.sum_range_zero]
  norm_num [show x4[0]? = some (0.15:ℝ) from rfl,
    show x4[1]? = some (0:ℝ) from rfl, show x4[2]? = some (-0.15:ℝ) from rfl,
    show x4[3]? = some (0:ℝ) from rfl]

theorem autocorr_x4_two : autocorr x4 2 = -0.0225 := by
  rw [autocorr, show x4.length - 2 = 2 from rfl]
  rw [Finset.sum_range_succ, Finset.sum_range_succ, Finset.sum_range_zero]
  norm_num [show x4[0]? = some (0.15:ℝ) from rfl,
    show x4[1]? = some (0:ℝ) from rfl, show x4[2]? = some (-0.15:ℝ) from rfl,
    show x4[3]? = some (0:ℝ) from rfl]

theorem autocorr_x4_three : autocorr x4 3 = 0 := by
  rw [autocorr, show x4.length - 3 = 1 from rfl]
  rw [Finset.sum_range_succ, Finset.sum_range_zero]
  norm_num [show x4[0]? = some (0.15:ℝ) from rfl,
    show x4[3]? = some (0:ℝ) from rfl]

theorem acMax_x4 : acMax x4 = 0.045 := by
  rw [acMax, show x4.length = 4 from rfl, show List.range 4 = [0,1,2,3] from rfl]
  simp only [List.map_cons, List.map_nil, List.foldr_cons, List.foldr_nil,
    autocorr_x4_zero, autocorr_x4_one, autocorr_x4_two, autocorr_x4_three]
  norm_num [max_def]

theorem peaks_x4 : peaks x4 = [0] := by
  rw [peaks, show x4.length = 4 from rfl, show List.range 4 = [0,1,2,3] from rfl]
  simp only [List.filter_cons, List.filter_nil, decide_eq_true_eq, acMax_x4,
    autocorr_x4_zero, autocorr_x4_one, autocorr_x4_two, autocorr_x4_three,
    ECHO_THRESHOLD]
  norm_num

theorem no_echo_x4 : ¬has_periodic_echo x4 := by
  rintro ⟨h, -⟩
  rw [peaks_x4] at h
  simp [listDiff] at h

theorem abs_015 : |(0.15:ℝ)| = 0.15 := abs_of_pos (by norm_num)

theorem abs_neg_015 : |(-0.15:ℝ)| = 0.15 := by
  rw [abs_neg]
  exact abs_015

theorem ampDiffs_x4 : ampDiffs x4 = [-(0.15:ℝ), 0.15, -0.15] := by
  rw [ampDiffs, show x4 = [0.15, 0, -0.15, 0] from rfl]
  simp [abs_015, abs_neg_015]

theorem no_spikes_x4 : ¬has_feedback_spikes x4 NOISE_THRESHOLD := by
  rintro ⟨d, hd, habs⟩
  rw [ampDiffs_x4] at hd
  rw [NOISE_THRESHOLD] at habs
  simp only [List.mem_cons, List.not_mem_nil, or_false] at hd
  rcases hd with rfl | rfl | rfl
  · rw [abs_neg_015] at habs
    norm_num at habs
  · rw [abs_015] at habs
    norm_num at habs
  · rw [abs_neg_015] at habs
    norm_num at habs

theorem argsort_x4 :
    argsort (fun k => Complex.abs (fftc x4 k)) [0, 1] = [0, 1] := by
  have hkey : Complex.abs (fftc x4 0) ≤ Complex.abs (fftc x4 1) := by
    rw [fftc_x4_zero, fftc_x4_one, map_zero, Complex.abs_ofReal,
      abs_of_pos (show (0:ℝ) < 0.3 by norm_num)]
    norm_num
  rw [argsort]
  simp only [List.foldl_cons, List.foldl_nil, insertSortedIdx]
  rw [if_pos hkey]

theorem topPeakIdx_x4 : topPeakIdx x4 = [0, 1] := by
  rw [topPeakIdx, show x4.length / 2 = 2 from rfl,
    show List.range 2 = [0, 1] from rfl]
  rw [argsort_x4]
  rfl

theorem no_feedback_freqs_x4 : ¬has_feedback_freqs x4 := by
  rintro ⟨k, hk, h1, h2⟩
  rw [topPeakIdx_x4] at hk
  simp only [List.mem_cons, List.not_mem_nil, or_false] at hk
  rcases hk with rfl | rfl
  · rw [show x4.length = 4 from rfl, fftfreq_four_zero] at h1
    norm_num at h1
  · rw [show x4.length = 4 from rfl, fftfreq_four_one] at h2
    norm_num at h2

theorem is_speech_x4 : is_speech x4 NOISE_THRESHOLD :=
  ⟨rms_x4,
    by rw [speech_energy_x4, NOISE_THRESHOLD]; norm_num,
    no_echo_x4, no_spikes_x4, no_feedback_freqs_x4⟩

theorem not_speech_z4 : ¬is_speech z4 NOISE_THRESHOLD := by
  rintro ⟨h, -, -, -, -⟩
  rw [rms, show ((z4.map (fun v => v ^ 2)).sum / (z4.length:ℝ)) = 0 by
      norm_num [z4], Real.sqrt_zero, NOISE_THRESHOLD] at h
  norm_num at h

theorem autocorr_replicate (N k : ℕ) :
    autocorr (List.replicate N (1:ℝ)) k = ((N - k : ℕ) : ℝ) := by
  unfold autocorr
  rw [List.length_replicate]
  have h : ∀ n ∈ Finset.range (N - k),
      (List.replicate N (1:ℝ)).getD n 0 *
        (List.replicate N (1:ℝ)).getD (n + k) 0 = 1 := by
    intro n hn
    rw [Finset.mem_range] at hn
    have h1 : n < N := by omega
    have h2 : n + k < N := by omega
    rw [List.getD_eq_getElem?_getD, List.getD_eq_getElem?_getD]
    simp [List.getElem?_replicate, h1, h2]
  rw [Finset.sum_congr rfl h]
  simp

theorem acMax_replicate_nine : acMax (List.replicate 9 (1:ℝ)) = 9 := by
  rw [acMax, List.length_replicate,
    show List.range 9 = [0,1,2,3,4,5,6,7,8] from rfl]
  simp only [List.map_cons, List.map_nil, autocorr_replicate,
    List.foldr_cons, List.foldr_nil]
  norm_num [max_def]

theorem peaks_replicate_nine : peaks (List.replicate 9 (1:ℝ)) = [0, 1, 2] := by
  rw [peaks, List.length_replicate,
    show List.range 9 = [0,1,2,3,4,5,6,7,8] from rfl]
  simp only [List.filter_cons, List.filter_nil, decide_eq_true_eq,
    autocorr_replicate, acMax_replicate_nine, ECHO_THRESHOLD]
  norm_num

theorem acMax_replicate_thirteen : acMax (List.replicate 13 (1:ℝ)) = 13 := by
  rw [acMax, List.length_replicate,
    show List.range 13 = [0,1,2,3,4,5,6,7,8,9,10,11,12] from rfl]
  simp only [List.map_cons, List.map_nil, autocorr_replicate,
    List.foldr_cons, List.foldr_nil]
  norm_num [max_def]

theorem peaks_replicate_thirteen :
    peaks (List.replicate 13 (1:ℝ)) = [0, 1, 2, 3] := by
  rw [peaks, List.length_replicate,
    show List.range 13 = [0,1,2,3,4,5,6,7,8,9,10,11,12] from rfl]
  simp only [List.filter_cons, List.filter_nil, decide_eq_true_eq,
    autocorr_replicate, acMax_replicate_thirteen, ECHO_THRESHOLD]
  norm_num

theorem lmean_ones_two : lmean [(1:ℤ), 1] = 1 := by
  norm_num [lmean]

theorem lstd_ones_two : lstd [(1:ℤ), 1] = 0 := by
  have h : ((([(1:ℤ), 1]).map
      (fun v => ((v:ℝ) - lmean [(1:ℤ), 1]) ^ 2)).sum) /
        (([(1:ℤ), 1]).length : ℝ) = 0 := by
    norm_num [lmean_ones_two]
  rw [lstd, h, Real.sqrt_zero]

theorem lmean_ones_three : lmean [(1:ℤ), 1, 1] = 1 := by
  norm_num [lmean]

theorem lstd_ones_three : lstd [(1:ℤ), 1, 1] = 0 := by
  have h : ((([(1:ℤ), 1, 1]).map
      (fun v => ((v:ℝ) - lmean [(1:ℤ), 1, 1]) ^ 2)).sum) /
        (([(1:ℤ), 1, 1]).length : ℝ) = 0 := by
    norm_num [lmean_ones_three]
  rw [lstd, h, Real.sqrt_zero]

theorem listDiff_length (l : List ℕ) : (listDiff l).length = l.length - 1 := by
  rw [listDiff, List.length_zipWith, List.length_tail]
  omega

/-- Counterexample to C2 as stated: on a constant 9-sample frame, exactly 3
non-negative-lag autocorrelation positions exceed 0.75 times the maximum
and the two spacings have standard deviation 0 (below 0.1 times their
mean), yet the code's veto does not fire, because line 132 requires
`len(peak_spacing) > 2`, i.e. at least 4 peak positions, not 3. -/
theorem c2_counterexample :
    3 ≤ (peaks (List.replicate 9 (1:ℝ))).length ∧
      lstd (listDiff (peaks (List.replicate 9 (1:ℝ)))) <
        0.1 * lmean (listDiff (peaks (List.replicate 9 (1:ℝ)))) ∧
      ¬has_periodic_echo (List.replicate 9 (1:ℝ)) := by
  have hdiff : listDiff (peaks (List.replicate 9 (1:ℝ))) = [1, 1] := by
    rw [peaks_replicate_nine]
    rfl
  refine ⟨by rw [peaks_replicate_nine]; decide, ?_, ?_⟩
  · rw [hdiff, lstd_ones_two, lmean_ones_two]
    norm_num
  · rintro ⟨h, -⟩
    rw [hdiff] at h
    norm_num at h

/-- C2 amended: the periodic-echo veto fires exactly when at least FOUR
non-negative-lag autocorrelation positions exceed `ECHO_THRESHOLD` (0.75)
times the maximum autocorrelation value (the code tests
`len(peak_spacing) > 2`) and the spacings between consecutive peaks have
standard deviation below 0.1 times their mean; whenever the veto fires,
`is_speech` returns false, regardless of the RMS and spectral-energy
evidence. -/
theorem c2_echo_veto (x : List ℝ) (t : ℝ) :
    (has_periodic_echo x ↔
      (4 ≤ (peaks x).length ∧
        lstd (listDiff (peaks x)) < 0.1 * lmean (listDiff (peaks x)))) ∧
    (has_periodic_echo x → ¬is_speech x t) := by
  constructor
  · unfold has_periodic_echo
    have hl : (2 < (listDiff (peaks x)).length) ↔ (4 ≤ (peaks x).length) := by
      rw [listDiff_length]
      omega
    exact and_congr hl Iff.rfl
  · rintro he ⟨-, -, hno, -⟩
    exact hno he

/-- Witness for the amended C2: a constant 13-sample frame (the strongest
form of a periodic tone) produces the regularly spaced peak pattern
`[0, 1, 2, 3]`, the veto fires, and `is_speech` rejects the frame. -/
theorem c2_witness :
    has_periodic_echo (List.replicate 13 (1:ℝ)) ∧
      ¬is_speech (List.replicate 13 (1:ℝ)) NOISE_THRESHOLD := by
  have hdiff : listDiff (peaks (List.replicate 13 (1:ℝ))) = [1, 1, 1] := by
    rw [peaks_replicate_thirteen]
    rfl
  have hecho : has_periodic_echo (List.replicate 13 (1:ℝ)) :=
    (c2_echo_veto (List.replicate 13 (1:ℝ)) NOISE_THRESHOLD).1.mpr
      ⟨by rw [peaks_replicate_thirteen]; decide, by
        rw [hdiff, lstd_ones_three, lmean_ones_three]
        norm_num⟩
  exact ⟨hecho,
    (c2_echo_veto (List.replicate 13 (1:ℝ)) NOISE_THRESHOLD).2 hecho⟩

theorem counterStep_speech (c : ℕ × ℕ) (frame : List ℝ)
    (h : is_speech frame NOISE_THRESHOLD) :
    counterStep c frame = (c.1 + 1, 0) := by
  rw [counterStep, if_pos h]

theorem counterStep_silence (c : ℕ × ℕ) (frame : List ℝ)
    (h : ¬is_speech frame NOISE_THRESHOLD) :
    counterStep c frame =
      (if silence_frames_threshold ≤ c.2 + 1 then 0 else c.1, c.2 + 1) := by
  rw [counterStep, if_neg h]
  dsimp only
  split_ifs <;> rfl

theorem silence_run_resets (B : List (List ℝ)) :
    ∀ c : ℕ × ℕ, (∀ f ∈ B, ¬is_speech f NOISE_THRESHOLD) → B ≠ [] →
      silence_frames_threshold ≤ c.2 + B.length →
      (List.foldl counterStep c B).1 = 0 := by
  induction B with
  | nil => exact fun c _ hne _ => absurd rfl hne
  | cons f B ih =>
    intro c hB hne hlen
    rw [List.foldl_cons,
      counterStep_silence c f (hB f (List.mem_cons_self f B))]
    rcases eq_or_ne B [] with hBe | hBe
    · subst hBe
      rw [List.foldl_nil]
      have hthr : silence_frames_threshold ≤ c.2 + 1 := by
        simpa using hlen
      rw [if_pos hthr]
    · apply ih _ (fun g hg => hB g (List.mem_cons_of_mem f hg)) hBe
      rw [List.length_cons] at hlen
      dsimp only
      omega

/-- C5: on each frame the counter update increments `speech_frames` and
clears `silence_frames` when the frame is classified as speech; otherwise
it increments `silence_frames` and, once that counter reaches
`int(SILENCE_DURATION*16000/1024) = 15`, clears `speech_frames`; hence any
speech run followed by a silence run of at least the threshold length
(1.5 s = 23 frames suffices) ends with `speech_frames = 0`, independently
of `should_transcribe`. -/
theorem c5_counter_dynamics :
    (∀ (c : ℕ × ℕ) (frame : List ℝ), is_speech frame NOISE_THRESHOLD →
      counterStep c frame = (c.1 + 1, 0)) ∧
    (∀ (c : ℕ × ℕ) (frame : List ℝ), ¬is_speech frame NOISE_THRESHOLD →
      counterStep c frame =
        (if silence_frames_threshold ≤ c.2 + 1 then 0 else c.1, c.2 + 1)) ∧
    (∀ (c : ℕ × ℕ) (A B : List (List ℝ)),
      (∀ f ∈ A, is_speech f NOISE_THRESHOLD) →
      (∀ f ∈ B, ¬is_speech f NOISE_THRESHOLD) →
      silence_frames_threshold ≤ B.length →
      (List.foldl counterStep (List.foldl counterStep c A) B).1 = 0) := by
  refine ⟨counterStep_speech, counterStep_silence, ?_⟩
  intro c A B _ hB hlen
  have hne : B ≠ [] := by
    intro hBe
    subst hBe
    rw [silence_frames_threshold_eq] at hlen
    simp at hlen
  exact silence_run_resets B _ hB hne (by omega)

/-- Witness for C5: 32 frames of the concrete speech tone (just over the
2-second speech run at 1024-sample frames) followed by 23 silent frames
(a 1.5-second silence run, above the 15-frame threshold) leave
`speech_frames` at 0. -/
theorem c5_witness :
    (∀ f ∈ List.replicate 32 x4, is_speech f NOISE_THRESHOLD) ∧
    (∀ f ∈ List.replicate 23 z4, ¬is_speech f NOISE_THRESHOLD) ∧
    silence_frames_threshold ≤ (List.replicate 23 z4).length ∧
    is_speech x4 NOISE_THRESHOLD ∧
    counterStep (5, 3) x4 = (6, 0) ∧
    ¬is_speech z4 NOISE_THRESHOLD ∧
    counterStep (5, 3) z4 = (5, 4) ∧
    (List.foldl counterStep
      (List.foldl counterStep ((0, 0) : ℕ × ℕ) (List.replicate 32 x4))
      (List.replicate 23 z4)).1 = 0 := by
  have hA : ∀ f ∈ List.replicate 32 x4, is_speech f NOISE_THRESHOLD := by
    intro f hf
    rw [List.eq_of_mem_replicate hf]
    exact is_speech_x4
  have hB : ∀ f ∈ List.replicate 23 z4, ¬is_speech f NOISE_THRESHOLD := by
    intro f hf
    rw [List.eq_of_mem_replicate hf]
    exact not_speech_z4
  have hlen : silence_frames_threshold ≤ (List.replicate 23 z4).length := by
    rw [silence_frames_threshold_eq, List.length_replicate]
    norm_num
  have hsil : counterStep (5, 3) z4 = (5, 4) := by
    rw [c5_counter_dynamics.2.1 (5, 3) z4 not_speech_z4,
      silence_frames_threshold_eq]
    norm_num
  exact ⟨hA, hB, hlen, is_speech_x4,
    c5_counter_dynamics.1 (5, 3) x4 is_speech_x4, not_speech_z4, hsil,
    c5_counter_dynamics.2.2 (0, 0) _ _ hA hB hlen⟩
